import Mathlib

/-!
Verification of the peer message protocol and agent coordination layer of
the `agents-p2p-network` repository (package `p2p` in
`internal/p2p/message.go` together with the agent dispatch in the `agent`
package).

The Go code is shallowly embedded: the two registry maps of the `Host`
struct become association lists, JSON bytes on the wire become a JSON
value tree (`Json`), and the external transport substrate (libp2p streams)
is passed in as explicit outcome parameters, exactly at the narrow
interface boundary the design describes.
-/

set_option autoImplicit false

namespace P2P

/-- JSON values, the wire form produced and consumed by `encoding/json`.
Numbers are modelled as integers; none of the protocol envelope fields is
numeric, so this loses nothing for the envelope codec. -/
inductive Json where
  | null : Json
  | bool (b : Bool) : Json
  | num (n : Int) : Json
  | str (s : String) : Json
  | arr (xs : List Json) : Json
  | obj (fields : List (String × Json)) : Json
  deriving Repr

/-- Peer identities (`peer.ID` in go-libp2p) are opaque strings. -/
abbrev PeerID := String

/-- MessageType is a string type in the source (`type MessageType string`). -/
abbrev MessageType := String

def MessageTypeChat : MessageType := "chat"

def MessageTypeComplete : MessageType := "complete"

def MessageTypeRegister : MessageType := "register"

def MessageTypePing : MessageType := "ping"

def MessageTypePong : MessageType := "pong"

def MessageTypeError : MessageType := "error"

def MessageTypeAnnounce : MessageType := "announce"

/-- The seven defined message types of the protocol. -/
def definedMessageTypes : List MessageType :=
  [MessageTypeChat, MessageTypeComplete, MessageTypeRegister, MessageTypePing,
   MessageTypePong, MessageTypeError, MessageTypeAnnounce]

/-- The wire envelope (struct `Message` in `message.go`).  `To` and
`RequestID` carry `omitempty`, so the empty string is the absent value;
`Payload` is a `json.RawMessage`, modelled as the parsed JSON value it
frames (a nil raw message and JSON `null` coincide in this view). -/
structure Message where
  type : MessageType
  from_ : String
  to_ : String
  requestID : String
  payload : Json
  deriving Repr

/-- Last-occurrence lookup of a key in a JSON object, matching the Go
decoder which lets a later duplicate key overwrite an earlier one. -/
def lookupLast (fields : List (String × Json)) (k : String) : Option Json :=
  fields.foldl (fun acc kv => if kv.1 = k then some kv.2 else acc) none

/-- Reading a JSON value into a Go `string` field: an absent field or JSON
`null` leaves the zero value `""`; a JSON string is taken verbatim; any
other JSON value is a type mismatch and fails the whole unmarshal. -/
def jsonAsGoString : Option Json → Option String
  | none => some ""
  | some Json.null => some ""
  | some (Json.str s) => some s
  | some _ => none

/-- Encoding of the envelope, following `json.Marshal` on struct `Message`:
fields in declaration order, `to` and `request_id` omitted when empty,
`payload` always present. -/
def encodeMessage (m : Message) : Json :=
  Json.obj
    ([("type", Json.str m.type), ("from", Json.str m.from_)]
      ++ (if m.to_ = "" then [] else [("to", Json.str m.to_)])
      ++ (if m.requestID = "" then [] else [("request_id", Json.str m.requestID)])
      ++ [("payload", m.payload)])

/-- Decoding of the envelope, following `json.Unmarshal` into a fresh
`Message`: the input must be a JSON object (or `null`, which yields the
zero value); unknown keys are ignored; a missing `payload` leaves the nil
raw message, identified with JSON `null`. -/
def decodeMessage : Json → Option Message
  | Json.obj fields =>
    match jsonAsGoString (lookupLast fields "type"),
          jsonAsGoString (lookupLast fields "from"),
          jsonAsGoString (lookupLast fields "to"),
          jsonAsGoString (lookupLast fields "request_id") with
    | some t, some f, some to_, some rid =>
        some ⟨t, f, to_, rid, (lookupLast fields "payload").getD Json.null⟩
    | _, _, _, _ => none
  | Json.null => some ⟨"", "", "", "", Json.null⟩
  | _ => none

/-- One entry per known network identity (struct `PeerInfo`); `Addrs` are
multiaddresses rendered as strings. -/
structure PeerInfo where
  ID : PeerID
  Name : String
  Addrs : List String
  Connected : Bool
  deriving Repr, DecidableEq

/-- The mutable registry state of the `Host` struct: the `peers` map and the
`agentNames` map, both guarded in the source by `peersMu`.  Go maps become
association lists whose keys are unique (a `Nodup` hypothesis where a proof
needs it); lookup is `mapGet`, store is `mapSet`. -/
structure Host where
  peers : List (PeerID × PeerInfo)
  agentNames : List (String × PeerID)
  deriving Repr, DecidableEq

/-- Go map read `m[k]`. -/
def mapGet {α : Type} (l : List (String × α)) (k : String) : Option α :=
  (l.find? (fun kv => kv.1 = k)).map (fun kv => kv.2)

/-- Go map store `m[k] = v`: replace the binding if the key is present,
append a fresh binding otherwise. -/
def mapSet {α : Type} (l : List (String × α)) (k : String) (v : α) :
    List (String × α) :=
  if l.any (fun kv => kv.1 = k)
  then l.map (fun kv => if kv.1 = k then (k, v) else kv)
  else l ++ [(k, v)]

/-- The error message built by `RegisterAgentName` on a duplicate name:
`fmt.Errorf("agent name '%s' is already taken by peer %s", name,
existingPeer.String()[:12])` — note the owner identity is sliced to its
first 12 bytes before being interpolated. -/
def nameConflictMsg (name : String) (existingPeer : PeerID) : String :=
  "agent name '" ++ name ++ "' is already taken by peer " ++ existingPeer.take 12

/-- `Host.RegisterAgentName` (message.go:288-300): under the write lock, if
the name is claimed by a different peer, fail; otherwise store the claim. -/
def RegisterAgentName (h : Host) (name : String) (peerID : PeerID) :
    Except String Host :=
  match mapGet h.agentNames name with
  | some existingPeer =>
      if existingPeer ≠ peerID
      then Except.error (nameConflictMsg name existingPeer)
      else Except.ok { h with agentNames := mapSet h.agentNames name peerID }
  | none => Except.ok { h with agentNames := mapSet h.agentNames name peerID }

/-- `Host.IsNameTaken` (message.go:302-310): point-in-time read of the
name-claim table; the empty identity stands for go's zero `peer.ID`. -/
def IsNameTaken (h : Host) (name : String) : Bool × PeerID :=
  match mapGet h.agentNames name with
  | some peerID => (true, peerID)
  | none => (false, "")

/-- `Host.GetPeers` (message.go:374-383): a fresh slice holding every
`PeerInfo` in the registry, connected or not. -/
def GetPeers (h : Host) : List PeerInfo :=
  h.peers.map (fun kv => kv.2)

/-- The field assignment `p.Connected = b` performed by the lifecycle
callbacks: only the `Connected` flag changes. -/
def setConnected (b : Bool) (info : PeerInfo) : PeerInfo :=
  { info with Connected := b }

/-- `Host.onPeerConnected` (message.go:393-407): first sighting creates a
`PeerInfo` with only the identity and `Connected = true`; a re-connect
flips `Connected` on the existing entry and touches nothing else. -/
def onPeerConnected (h : Host) (peerID : PeerID) : Host :=
  if h.peers.any (fun kv => kv.1 = peerID)
  then { h with peers := h.peers.map (fun kv =>
          if kv.1 = peerID then (kv.1, setConnected true kv.2) else kv) }
  else { h with peers := h.peers ++
          [(peerID, { ID := peerID, Name := "", Addrs := [], Connected := true })] }

/-- `Host.onPeerDisconnected` (message.go:409-418): an existing entry has
`Connected` set to `false`; an unknown peer is left alone — the entry is
never deleted. -/
def onPeerDisconnected (h : Host) (peerID : PeerID) : Host :=
  if h.peers.any (fun kv => kv.1 = peerID)
  then { h with peers := h.peers.map (fun kv =>
          if kv.1 = peerID then (kv.1, setConnected false kv.2) else kv) }
  else h

/-- The connected-peer snapshot taken at the top of `Host.Broadcast`
(message.go:144-151): the identities of exactly those registry entries
whose `Connected` flag is set, copied out under the read lock.  This is
the code's realization of the design's `connectedPeers()`. -/
def connectedPeersSnapshot (h : Host) : List PeerID :=
  h.peers.filterMap (fun kv => if kv.2.Connected then some kv.1 else none)

/-- What a single byte string read from a stream looks like to
`json.Unmarshal`: empty, a well-formed JSON document, or malformed bytes. -/
inductive StreamBytes where
  | empty : StreamBytes
  | wellFormed (j : Json) : StreamBytes
  | malformed : StreamBytes

/-- `Host.SendMessage` (message.go:107-141), with the external libp2p
stream passed in at its interface boundary: `openRes` is the outcome of
`NewStream`, `writeRes` of `s.Write`, and `readRes` of `io.ReadAll` after
the half-close.  A zero-byte read returns `(nil, nil)` — no reply, no
error; otherwise the bytes must unmarshal into a `Message`. -/
def SendMessage (openRes : Except String Unit) (writeRes : Except String Unit)
    (readRes : Except String StreamBytes) (msg : Message) :
    Except String (Option Message) :=
  match openRes with
  | Except.error e => Except.error ("failed to open stream: " ++ e)
  | Except.ok _ =>
    -- json.Marshal of the envelope; in the tree model it always succeeds
    let _ := encodeMessage msg
    match writeRes with
    | Except.error e => Except.error ("failed to write message: " ++ e)
    | Except.ok _ =>
      match readRes with
      | Except.error e => Except.error ("failed to read response: " ++ e)
      | Except.ok StreamBytes.empty => Except.ok none
      | Except.ok (StreamBytes.wellFormed j) =>
        match decodeMessage j with
        | some response => Except.ok (some response)
        | none => Except.error "failed to unmarshal response"
      | Except.ok StreamBytes.malformed => Except.error "failed to unmarshal response"

/-- `Host.Broadcast` (message.go:143-162): snapshot the connected peers
under the read lock, then fire one `SendMessage` per peer, each in its own
goroutine whose outcome (`send pid`) is only logged; the caller always
gets `nil` back.  The first component records, per dispatched peer, whether
its send succeeded. -/
def Broadcast (h : Host) (send : PeerID → Except String (Option Message)) :
    List (PeerID × Bool) × Except String Unit :=
  ((connectedPeersSnapshot h).map (fun pid =>
      (pid, match send pid with | Except.ok _ => true | Except.error _ => false)),
    Except.ok ())

/-- `RegisterPayload` (message.go:64-68): the body of a `register` message. -/
structure RegisterPayload where
  AgentName : String
  Endpoint : String
  Models : List String
  deriving Repr

/-- `AnnouncePayload` (message.go:27-33): the body of an `announce` message. -/
structure AnnouncePayload where
  Type_ : String
  Name : String
  URL : String
  Description : String
  Tags : List String
  deriving Repr

/-- Reading a JSON value into a Go `[]string` field: absent or `null`
leaves the nil slice; an array must hold strings (element `null` leaves the
zero string); anything else is a type mismatch. -/
def jsonAsGoStringList : Option Json → Option (List String)
  | none => some []
  | some Json.null => some []
  | some (Json.arr xs) =>
      xs.mapM (fun j =>
        match j with
        | Json.str s => some s
        | Json.null => some ""
        | _ => none)
  | some _ => none

/-- `json.Unmarshal` into `RegisterPayload`. -/
def decodeRegisterPayload : Json → Option RegisterPayload
  | Json.obj fields =>
    match jsonAsGoString (lookupLast fields "agent_name"),
          jsonAsGoString (lookupLast fields "endpoint"),
          jsonAsGoStringList (lookupLast fields "models") with
    | some an, some ep, some ms => some ⟨an, ep, ms⟩
    | _, _, _ => none
  | Json.null => some ⟨"", "", []⟩
  | _ => none

/-- `json.Unmarshal` into `AnnouncePayload`. -/
def decodeAnnouncePayload : Json → Option AnnouncePayload
  | Json.obj fields =>
    match jsonAsGoString (lookupLast fields "type"),
          jsonAsGoString (lookupLast fields "name"),
          jsonAsGoString (lookupLast fields "url"),
          jsonAsGoString (lookupLast fields "description"),
          jsonAsGoStringList (lookupLast fields "tags") with
    | some t, some n, some u, some d, some tg => some ⟨t, n, u, d, tg⟩
    | _, _, _, _, _ => none
  | Json.null => some ⟨"", "", "", "", []⟩
  | _ => none

/-- `json.Unmarshal` into the external `api.ChatCompletionRequest` struct:
only the top-level shape is modelled (the struct lives in the gateway
layer, an external collaborator of this core), so any JSON object or
`null` parses and anything else is a type mismatch. -/
def decodeChatCompletionRequest : Json → Option Json
  | Json.obj fields => some (Json.obj fields)
  | Json.null => some Json.null
  | _ => none

/-- `AgentRecord` (agent package): metadata kept per registered agent. -/
structure AgentRecord where
  PeerID : PeerID
  Name : String
  Endpoint : String
  Models : List String
  deriving Repr

/-- The mutable state the agent's message handler touches: the p2p host
registry and the `agentRegistry` map keyed by `peer.ID.String()`. -/
structure AgentState where
  p2pHost : Host
  agentRegistry : List (String × AgentRecord)
  deriving Repr

/-- Result of one inbound dispatch: new state, optional reply written back
on the stream, optional handler error.  This is the
`(*Message, error)` pair of the Go `MessageHandler` with the state change
made explicit. -/
abbrev HandlerResult := AgentState × Option Message × Option String

/-- `Agent.handleRegister` (agent package): unmarshal the payload, try to
claim the advertised name, answer `error` on a conflict and `pong` on
success, recording the agent's metadata. -/
def handleRegister (selfID : String) (a : AgentState) (from_ : PeerID)
    (msg : Message) : HandlerResult :=
  match decodeRegisterPayload msg.payload with
  | none => (a, none, some "unmarshal error")
  | some payload =>
    match RegisterAgentName a.p2pHost payload.AgentName from_ with
    | Except.error e =>
        (a, some { type := MessageTypeError, from_ := selfID, to_ := "",
                   requestID := "", payload := Json.obj [("error", Json.str e)] },
         none)
    | Except.ok h' =>
        ({ p2pHost := h',
           agentRegistry := mapSet a.agentRegistry from_
             ⟨from_, payload.AgentName, payload.Endpoint, payload.Models⟩ },
         some { type := MessageTypePong, from_ := selfID, to_ := "",
                requestID := "", payload := Json.null },
         none)

/-- `Agent.handleChatRequest` (agent package): unmarshal the chat request
and forward it to the completion backend — `forward` is the outbound HTTP
call to the external API, passed in at its interface boundary; a reply of
type `complete` echoes the `request_id`. -/
def handleChatRequest (forward : Json → Except String Json) (selfID : String)
    (a : AgentState) (msg : Message) : HandlerResult :=
  match decodeChatCompletionRequest msg.payload with
  | none => (a, none, some "unmarshal error")
  | some chatReq =>
    match forward chatReq with
    | Except.error e => (a, none, some e)
    | Except.ok resp =>
        (a, some { type := MessageTypeComplete, from_ := selfID, to_ := "",
                   requestID := msg.requestID, payload := resp },
         none)

/-- `Agent.handlePing` (agent package): always answer `pong`. -/
def handlePing (selfID : String) (a : AgentState) : HandlerResult :=
  (a, some { type := MessageTypePong, from_ := selfID, to_ := "",
             requestID := "", payload := Json.null },
   none)

/-- `Agent.handleAnnounce` (agent package): unmarshal the payload, log it,
answer `pong`. -/
def handleAnnounce (selfID : String) (a : AgentState) (msg : Message) :
    HandlerResult :=
  match decodeAnnouncePayload msg.payload with
  | none => (a, none, some "unmarshal error")
  | some _ =>
    (a, some { type := MessageTypePong, from_ := selfID, to_ := "",
               requestID := "", payload := Json.null },
     none)

/-- `Agent.handleP2PMessage` (agent package): the type switch over the
envelope.  Every type other than `register`, `chat`, `ping` and `announce`
falls into the `default` branch: a warning is logged and `(nil, nil)` is
returned — no reply, no error, no state change. -/
def handleP2PMessage (forward : Json → Except String Json) (selfID : String)
    (a : AgentState) (from_ : PeerID) (msg : Message) : HandlerResult :=
  if msg.type = MessageTypeRegister then handleRegister selfID a from_ msg
  else if msg.type = MessageTypeChat then handleChatRequest forward selfID a msg
  else if msg.type = MessageTypePing then handlePing selfID a
  else if msg.type = MessageTypeAnnounce then handleAnnounce selfID a msg
  else (a, none, none)

/-- A one-peer registry in which `P1` is connected and owns `alice`. -/
def hostW : Host :=
  ⟨[("P1", ⟨"P1", "", [], true⟩)], [("alice", "P1")]⟩

/-- A registry with no peers and no claims. -/
def hostEmpty : Host :=
  ⟨[], []⟩

/-- Three connected peers, no name claims — the spec's broadcast scenario. -/
def hostThree : Host :=
  ⟨[("P1", ⟨"P1", "", [], true⟩), ("P2", ⟨"P2", "", [], true⟩),
    ("P3", ⟨"P3", "", [], true⟩)], []⟩

/-- A transport in which opening a stream to `P2` fails and every other
send succeeds with no reply. -/
def sendFailP2 : PeerID → Except String (Option Message) :=
  fun pid =>
    if pid = "P2" then Except.error "failed to open stream: connection refused"
    else Except.ok none

/-- Registry owning `alice` under a 20-byte identity ending in `nerOne`. -/
def hostOwnerOne : Host :=
  ⟨[], [("alice", "PeerAAAABBBBownerOne")]⟩

/-- Registry owning `alice` under a different identity with the same first
12 bytes. -/
def hostOwnerTwo : Host :=
  ⟨[], [("alice", "PeerAAAABBBBownerTwo")]⟩

/-- Round-trip identity for the envelope codec. -/
theorem decode_encode (m : Message) : decodeMessage (encodeMessage m) = some m := by
  obtain ⟨t, f, to_, rid, p⟩ := m
  by_cases hto : to_ = "" <;> by_cases hrid : rid = "" <;>
    simp [encodeMessage, decodeMessage, lookupLast, jsonAsGoString, hto, hrid]

theorem find?_replaceKey {α : Type} (l : List (String × α)) (k : String) (v : α)
    (h : l.any (fun kv => kv.1 = k) = true) :
    (l.map (fun kv => if kv.1 = k then (k, v) else kv)).find?
      (fun kv => kv.1 = k) = some (k, v) := by
  induction l with
  | nil => simp at h
  | cons kv tl ih =>
    by_cases hk : kv.1 = k
    · simp [hk]
    · have htl : tl.any (fun kv => kv.1 = k) = true := by
        simp only [List.any_cons, Bool.or_eq_true] at h
        exact h.resolve_left (by simpa using hk)
      simpa [hk] using ih htl

theorem find?_appendKey {α : Type} (l : List (String × α)) (k : String) (v : α)
    (h : l.any (fun kv => kv.1 = k) = false) :
    (l ++ [(k, v)]).find? (fun kv => kv.1 = k) = some (k, v) := by
  induction l with
  | nil => simp
  | cons kv tl ih =>
    simp only [List.any_cons, Bool.or_eq_false_iff] at h
    have hk : ¬ kv.1 = k := by simpa using h.1
    simpa [hk] using ih h.2

theorem replaceKey_id {α : Type} (l : List (String × α)) (k : String) (v : α)
    (h : l.any (fun kv => kv.1 = k) = false) :
    l.map (fun kv => if kv.1 = k then (k, v) else kv) = l := by
  induction l with
  | nil => rfl
  | cons kv tl ih =>
    simp only [List.any_cons, Bool.or_eq_false_iff] at h
    have hk : ¬ kv.1 = k := by simpa using h.1
    simp [hk, ih h.2]

theorem mapGet_mapSet_self {α : Type} (l : List (String × α)) (k : String) (v : α) :
    mapGet (mapSet l k v) k = some v := by
  unfold mapGet mapSet
  by_cases h : l.any (fun kv => kv.1 = k)
  · rw [if_pos h, find?_replaceKey l k v h]
    rfl
  · rw [if_neg h, find?_appendKey l k v (Bool.eq_false_iff.mpr h)]
    rfl

theorem find?_replaceKey_other {α : Type} (l : List (String × α)) (k k' : String)
    (v : α) (hne : k' ≠ k) :
    (l.map (fun kv => if kv.1 = k then (k, v) else kv)).find?
      (fun kv => kv.1 = k') = l.find? (fun kv => kv.1 = k') := by
  induction l with
  | nil => rfl
  | cons kv tl ih =>
    by_cases hk : kv.1 = k
    · have hb1 : decide (k = k') = false := decide_eq_false (fun he => hne he.symm)
      have hb2 : decide (kv.1 = k') = false :=
        decide_eq_false (fun he => hne (he.symm.trans hk))
      simp only [List.map_cons, if_pos hk, List.find?_cons, hb1, hb2, cond_false]
      exact ih
    · by_cases hk' : kv.1 = k'
      · have hb : decide (kv.1 = k') = true := decide_eq_true hk'
        simp only [List.map_cons, if_neg hk, List.find?_cons, hb, cond_true]
      · have hb : decide (kv.1 = k') = false := decide_eq_false hk'
        simp only [List.map_cons, if_neg hk, List.find?_cons, hb, cond_false]
        exact ih

theorem find?_append_other {α : Type} (l : List (String × α)) (k k' : String)
    (v : α) (hne : k' ≠ k) :
    (l ++ [(k, v)]).find? (fun kv => kv.1 = k')
      = l.find? (fun kv => kv.1 = k') := by
  induction l with
  | nil =>
    have hb : decide (k = k') = false := decide_eq_false (fun he => hne he.symm)
    simp only [List.nil_append, List.find?_cons, hb, cond_false]
  | cons kv tl ih =>
    by_cases hk' : kv.1 = k'
    · have hb : decide (kv.1 = k') = true := decide_eq_true hk'
      simp only [List.cons_append, List.find?_cons, hb, cond_true]
    · have hb : decide (kv.1 = k') = false := decide_eq_false hk'
      simp only [List.cons_append, List.find?_cons, hb, cond_false]
      exact ih

theorem mapGet_mapSet_other {α : Type} (l : List (String × α)) (k k' : String)
    (v : α) (hne : k' ≠ k) : mapGet (mapSet l k v) k' = mapGet l k' := by
  unfold mapGet mapSet
  by_cases h : l.any (fun kv => kv.1 = k)
  · rw [if_pos h, find?_replaceKey_other l k k' v hne]
  · rw [if_neg h, find?_append_other l k k' v hne]

theorem mapSet_mapSet_same {α : Type} (l : List (String × α)) (k : String) (v : α) :
    mapSet (mapSet l k v) k v = mapSet l k v := by
  unfold mapSet
  have hcomp : ∀ kv : String × α,
      (if (if kv.1 = k then (k, v) else kv).1 = k then (k, v)
        else (if kv.1 = k then (k, v) else kv))
      = (if kv.1 = k then (k, v) else kv) := by
    intro kv
    by_cases hk : kv.1 = k <;> simp [hk]
  by_cases h : l.any (fun kv => kv.1 = k)
  · have hany : (l.map (fun kv => if kv.1 = k then (k, v) else kv)).any
        (fun kv => kv.1 = k) = true := by
      rw [List.any_map]
      have : ((fun kv : String × α => decide (kv.1 = k))
          ∘ (fun kv => if kv.1 = k then (k, v) else kv))
          = (fun kv : String × α => decide (kv.1 = k)) := by
        funext kv
        by_cases hk : kv.1 = k <;> simp [Function.comp, hk]
      rw [this]
      exact h
    rw [if_pos h, if_pos hany, List.map_map]
    have : ((fun kv : String × α => if kv.1 = k then (k, v) else kv)
        ∘ (fun kv => if kv.1 = k then (k, v) else kv))
        = (fun kv : String × α => if kv.1 = k then (k, v) else kv) := by
      funext kv
      exact hcomp kv
    rw [this]
  · have hany : (l ++ [(k, v)]).any (fun kv => kv.1 = k) = true := by
      simp
    rw [if_neg h, if_pos hany, List.map_append,
        replaceKey_id l k v (Bool.eq_false_iff.mpr h)]
    simp

theorem find?_update_self {α : Type} (l : List (String × α)) (k : String)
    (g : α → α) :
    (l.map (fun kv => if kv.1 = k then (kv.1, g kv.2) else kv)).find?
      (fun kv => kv.1 = k)
      = (l.find? (fun kv => kv.1 = k)).map (fun kv => (kv.1, g kv.2)) := by
  induction l with
  | nil => rfl
  | cons kv tl ih =>
    by_cases hk : kv.1 = k
    · have hb : decide (kv.1 = k) = true := decide_eq_true hk
      simp only [List.map_cons, if_pos hk, List.find?_cons, hb, cond_true,
        Option.map_some']
    · have hb : decide (kv.1 = k) = false := decide_eq_false hk
      simp only [List.map_cons, if_neg hk, List.find?_cons, hb, cond_false]
      exact ih

theorem find?_update_other {α : Type} (l : List (String × α)) (k k' : String)
    (g : α → α) (hne : k' ≠ k) :
    (l.map (fun kv => if kv.1 = k then (kv.1, g kv.2) else kv)).find?
      (fun kv => kv.1 = k') = l.find? (fun kv => kv.1 = k') := by
  induction l with
  | nil => rfl
  | cons kv tl ih =>
    by_cases hk : kv.1 = k
    · have hb : decide (kv.1 = k') = false :=
        decide_eq_false (fun he => hne (he.symm.trans hk))
      simp only [List.map_cons, if_pos hk, List.find?_cons, hb, cond_false]
      exact ih
    · by_cases hk' : kv.1 = k'
      · have hb : decide (kv.1 = k') = true := decide_eq_true hk'
        simp only [List.map_cons, if_neg hk, List.find?_cons, hb, cond_true]
      · have hb : decide (kv.1 = k') = false := decide_eq_false hk'
        simp only [List.map_cons, if_neg hk, List.find?_cons, hb, cond_false]
        exact ih

theorem map_update_id {α : Type} (l : List (String × α)) (k : String)
    (g : String × α → String × α) (h : l.any (fun kv => kv.1 = k) = false) :
    l.map (fun kv => if kv.1 = k then g kv else kv) = l := by
  induction l with
  | nil => rfl
  | cons kv tl ih =>
    simp only [List.any_cons, Bool.or_eq_false_iff] at h
    have hk : ¬ kv.1 = k := by simpa using h.1
    simp [hk, ih h.2]

theorem any_key_map_update {α : Type} (l : List (String × α)) (k : String)
    (g : α → α) :
    ((l.map (fun kv => if kv.1 = k then (kv.1, g kv.2) else kv)).any
      (fun kv => kv.1 = k)) = (l.any (fun kv => kv.1 = k)) := by
  rw [List.any_map]
  congr 1
  funext kv
  by_cases hk : kv.1 = k <;> simp [Function.comp, hk]

/-- C1: for an unclaimed name `n`, `claimName(n, P1)` succeeds and records
`P1` as owner; a repeat `claimName(n, P1)` succeeds and leaves the claim
table (indeed the whole registry state) unchanged; `claimName(n, P2)` with
`P2 ≠ P1` fails with the name-conflict error and `P1` stays the owner. -/
theorem registerAgentName_claim_semantics (s : Host) (n : String)
    (P1 P2 : PeerID) (hun : mapGet s.agentNames n = none) (hne : P2 ≠ P1) :
    ∃ s', RegisterAgentName s n P1 = Except.ok s'
      ∧ mapGet s'.agentNames n = some P1
      ∧ RegisterAgentName s' n P1 = Except.ok s'
      ∧ RegisterAgentName s' n P2 = Except.error (nameConflictMsg n P1)
      ∧ IsNameTaken s' n = (true, P1) := by
  refine ⟨{ s with agentNames := mapSet s.agentNames n P1 }, ?_, ?_, ?_, ?_, ?_⟩
  · unfold RegisterAgentName
    rw [hun]
  · exact mapGet_mapSet_self s.agentNames n P1
  · unfold RegisterAgentName
    rw [show mapGet (mapSet s.agentNames n P1) n = some P1 from
        mapGet_mapSet_self s.agentNames n P1]
    simp [mapSet_mapSet_same]
  · unfold RegisterAgentName
    rw [show mapGet (mapSet s.agentNames n P1) n = some P1 from
        mapGet_mapSet_self s.agentNames n P1]
    simp [Ne.symm hne]
  · unfold IsNameTaken
    rw [mapGet_mapSet_self s.agentNames n P1]

/-- Witness for C1 at the spec's own example: name `alice`, peers `P1`,
`P2`, starting from an empty registry. -/
theorem registerAgentName_claim_semantics_witness :
    ∃ s', RegisterAgentName ⟨[], []⟩ "alice" "P1" = Except.ok s'
      ∧ mapGet s'.agentNames "alice" = some "P1"
      ∧ RegisterAgentName s' "alice" "P1" = Except.ok s'
      ∧ RegisterAgentName s' "alice" "P2" = Except.error (nameConflictMsg "alice" "P1")
      ∧ IsNameTaken s' "alice" = (true, "P1") :=
  registerAgentName_claim_semantics ⟨[], []⟩ "alice" "P1" "P2" rfl (by decide)

/-- C2: the envelope codec round-trips every message whose type is one of
the seven defined types — `decode(encode(m)) = m`. -/
theorem message_codec_roundtrip (m : Message)
    (_hty : m.type ∈ definedMessageTypes) :
    decodeMessage (encodeMessage m) = some m :=
  decode_encode m

/-- Witness for C2 on a concrete `chat` message with all fields set. -/
theorem message_codec_roundtrip_witness :
    decodeMessage (encodeMessage
      ⟨MessageTypeChat, "QmSender", "QmDest", "req-1",
        Json.obj [("model", Json.str "gpt-4")]⟩)
      = some ⟨MessageTypeChat, "QmSender", "QmDest", "req-1",
        Json.obj [("model", Json.str "gpt-4")]⟩ :=
  message_codec_roundtrip _ (by simp [definedMessageTypes])

theorem onPeerConnected_agentNames (s : Host) (P : PeerID) :
    (onPeerConnected s P).agentNames = s.agentNames := by
  unfold onPeerConnected
  split <;> rfl

theorem onPeerDisconnected_agentNames (s : Host) (P : PeerID) :
    (onPeerDisconnected s P).agentNames = s.agentNames := by
  unfold onPeerDisconnected
  split <;> rfl

/-- C5: a disconnect never deletes the peer's registry entry (it survives
with `Connected = false` and all other fields intact) and never releases
its name claims: `isNameTaken(n)` still reports `(true, P1)` and a claim of
`n` by a different peer still fails. -/
theorem disconnect_preserves_entry_and_claims (s : Host) (n : String)
    (P1 P2 : PeerID) (hown : mapGet s.agentNames n = some P1)
    (hne : P2 ≠ P1) :
    (onPeerDisconnected s P1).agentNames = s.agentNames
    ∧ (∀ info, (P1, info) ∈ s.peers →
        (P1, setConnected false info) ∈ (onPeerDisconnected s P1).peers)
    ∧ IsNameTaken (onPeerDisconnected s P1) n = (true, P1)
    ∧ RegisterAgentName (onPeerDisconnected s P1) n P2
        = Except.error (nameConflictMsg n P1) := by
  have hnames := onPeerDisconnected_agentNames s P1
  refine ⟨hnames, ?_, ?_, ?_⟩
  · intro info hmem
    have hex : s.peers.any (fun kv => kv.1 = P1) = true :=
      List.any_eq_true.mpr ⟨(P1, info), hmem, by simp⟩
    unfold onPeerDisconnected
    rw [if_pos hex]
    have := List.mem_map_of_mem
      (fun kv : PeerID × PeerInfo =>
        if kv.1 = P1 then (kv.1, setConnected false kv.2) else kv) hmem
    simpa using this
  · unfold IsNameTaken
    rw [hnames, hown]
  · unfold RegisterAgentName
    rw [hnames, hown]
    simp [Ne.symm hne]

/-- Witness for C5: a one-peer, one-claim registry. -/
theorem disconnect_preserves_entry_and_claims_witness :
    (onPeerDisconnected hostW "P1").agentNames = hostW.agentNames
    ∧ (∀ info, ("P1", info) ∈ hostW.peers →
        ("P1", setConnected false info)
          ∈ (onPeerDisconnected hostW "P1").peers)
    ∧ IsNameTaken (onPeerDisconnected hostW "P1") "alice" = (true, "P1")
    ∧ RegisterAgentName (onPeerDisconnected hostW "P1") "alice" "P2"
        = Except.error (nameConflictMsg "alice" "P1") :=
  disconnect_preserves_entry_and_claims hostW "alice" "P1" "P2" rfl (by decide)

/-- C6: a zero-byte read of the response stream makes `SendMessage` return
`(nil, nil)` — no reply and no error. -/
theorem sendMessage_zero_bytes_no_reply (msg : Message) :
    SendMessage (Except.ok ()) (Except.ok ()) (Except.ok StreamBytes.empty) msg
      = Except.ok none :=
  rfl

/-- C7 counterexample: the full owner identity is NOT available
programmatically from the `NameConflict` result.  Two registries whose
`alice` owners are different 20-byte identities sharing the same first 12
bytes produce literally identical error values, so no caller can recover
the full owner from the error — only the truncated display form is
carried. -/
theorem nameConflict_full_owner_not_in_error :
    RegisterAgentName hostOwnerOne "alice" "QmCallerPeer"
      = Except.error "agent name 'alice' is already taken by peer PeerAAAABBBB"
    ∧ RegisterAgentName hostOwnerTwo "alice" "QmCallerPeer"
      = Except.error "agent name 'alice' is already taken by peer PeerAAAABBBB"
    ∧ ("PeerAAAABBBBownerOne" : String) ≠ "PeerAAAABBBBownerTwo" :=
  ⟨rfl, rfl, by decide⟩

/-- C7 amended: the `NameConflict` result of `claimName(n, P2)` is a
string error embedding the existing owner's identity truncated to its
first 12 bytes; the full identity is not carried in the error value but
remains available programmatically through `isNameTaken(n)`. -/
theorem nameConflict_truncated_owner (s : Host) (n : String) (P1 P2 : PeerID)
    (hown : mapGet s.agentNames n = some P1) (hne : P2 ≠ P1) :
    RegisterAgentName s n P2 = Except.error (nameConflictMsg n P1)
    ∧ nameConflictMsg n P1
        = "agent name '" ++ n ++ "' is already taken by peer " ++ P1.take 12
    ∧ IsNameTaken s n = (true, P1) := by
  refine ⟨?_, rfl, ?_⟩
  · unfold RegisterAgentName
    rw [hown]
    simp [Ne.symm hne]
  · unfold IsNameTaken
    rw [hown]

/-- Witness for the amended C7 on a concrete registry with a long owner
identity. -/
theorem nameConflict_truncated_owner_witness :
    RegisterAgentName hostOwnerOne "alice" "QmCallerPeer"
      = Except.error (nameConflictMsg "alice" "PeerAAAABBBBownerOne")
    ∧ nameConflictMsg "alice" "PeerAAAABBBBownerOne"
        = "agent name 'alice' is already taken by peer "
            ++ ("PeerAAAABBBBownerOne" : String).take 12
    ∧ IsNameTaken hostOwnerOne "alice" = (true, "PeerAAAABBBBownerOne") :=
  nameConflict_truncated_owner hostOwnerOne "alice" "PeerAAAABBBBownerOne"
    "QmCallerPeer" rfl (by decide)

theorem registerAgentName_ok_inv (s : Host) (m : String) (R : PeerID)
    (s'' : Host) (h : RegisterAgentName s m R = Except.ok s'') :
    s''.agentNames = mapSet s.agentNames m R := by
  unfold RegisterAgentName at h
  rcases hget : mapGet s.agentNames m with _ | existing
  · rw [hget] at h
    have h' : Except.ok ({ s with agentNames := mapSet s.agentNames m R } : Host)
        = Except.ok s'' := h
    cases h'
    rfl
  · rw [hget] at h
    have h2 : (if existing ≠ R then Except.error (nameConflictMsg m existing)
        else Except.ok ({ s with agentNames := mapSet s.agentNames m R } : Host))
        = Except.ok s'' := h
    by_cases hex : existing ≠ R
    · rw [if_pos hex] at h2
      exact absurd h2 (by simp)
    · rw [if_neg hex] at h2
      cases h2
      rfl

theorem registerAgentName_ok_same_owner (s : Host) (n : String) (q R : PeerID)
    (s'' : Host) (hq : mapGet s.agentNames n = some q)
    (hreg : RegisterAgentName s n R = Except.ok s'') : q = R := by
  unfold RegisterAgentName at hreg
  rw [hq] at hreg
  have h2 : (if q ≠ R then Except.error (nameConflictMsg n q)
      else Except.ok ({ s with agentNames := mapSet s.agentNames n R } : Host))
      = Except.ok s'' := hreg
  by_cases hx : q ≠ R
  · rw [if_pos hx] at h2
    exact absurd h2 (by simp)
  · exact not_not.mp hx

/-- C10: a peer already owning name `A` can also claim an unclaimed name
`B`, after which both names map to it; and no registry operation —
connect, disconnect, or a successful claim — ever removes or transfers an
existing name claim. -/
theorem peer_owns_multiple_names (s : Host) (A B : String) (P : PeerID)
    (hA : mapGet s.agentNames A = some P) (hB : mapGet s.agentNames B = none)
    (hAB : B ≠ A) :
    (∃ s', RegisterAgentName s B P = Except.ok s'
      ∧ mapGet s'.agentNames A = some P ∧ mapGet s'.agentNames B = some P)
    ∧ (∀ (n : String) (q Q : PeerID), mapGet s.agentNames n = some q →
        mapGet (onPeerConnected s Q).agentNames n = some q
        ∧ mapGet (onPeerDisconnected s Q).agentNames n = some q)
    ∧ (∀ (n m : String) (q R : PeerID) (s'' : Host),
        mapGet s.agentNames n = some q →
        RegisterAgentName s m R = Except.ok s'' →
        mapGet s''.agentNames n = some q) := by
  refine ⟨⟨{ s with agentNames := mapSet s.agentNames B P }, ?_, ?_, ?_⟩, ?_, ?_⟩
  · unfold RegisterAgentName
    rw [hB]
  · rw [show mapGet (mapSet s.agentNames B P) A = mapGet s.agentNames A from
        mapGet_mapSet_other s.agentNames B A P (fun he => hAB he.symm)]
    exact hA
  · exact mapGet_mapSet_self s.agentNames B P
  · intro n q Q hq
    rw [onPeerConnected_agentNames, onPeerDisconnected_agentNames]
    exact ⟨hq, hq⟩
  · intro n m q R s'' hq hreg
    rw [registerAgentName_ok_inv s m R s'' hreg]
    by_cases hnm : n = m
    · subst hnm
      rw [registerAgentName_ok_same_owner s n q R s'' hq hreg]
      exact mapGet_mapSet_self s.agentNames n R
    · rw [mapGet_mapSet_other s.agentNames m n R hnm]
      exact hq

theorem Host.ext' (a b : Host) (h1 : a.peers = b.peers)
    (h2 : a.agentNames = b.agentNames) : a = b := by
  cases a
  cases b
  cases h1
  cases h2
  rfl

theorem onPeerConnected_peers (s : Host) (P : PeerID) :
    (onPeerConnected s P).peers =
      if s.peers.any (fun kv => kv.1 = P)
      then s.peers.map (fun kv =>
        if kv.1 = P then (kv.1, setConnected true kv.2) else kv)
      else s.peers ++ [(P, ⟨P, "", [], true⟩)] := by
  unfold onPeerConnected
  split <;> rfl

theorem onPeerDisconnected_peers (s : Host) (P : PeerID) :
    (onPeerDisconnected s P).peers =
      if s.peers.any (fun kv => kv.1 = P)
      then s.peers.map (fun kv =>
        if kv.1 = P then (kv.1, setConnected false kv.2) else kv)
      else s.peers := by
  unfold onPeerDisconnected
  split <;> rfl

theorem mem_connectedPeersSnapshot (s : Host) (p : PeerID) :
    p ∈ connectedPeersSnapshot s
      ↔ ∃ info, (p, info) ∈ s.peers ∧ info.Connected = true := by
  unfold connectedPeersSnapshot
  rw [List.mem_filterMap]
  constructor
  · rintro ⟨⟨q, info⟩, hmem, heq⟩
    by_cases hc : info.Connected = true
    · rw [if_pos hc] at heq
      cases heq
      exact ⟨info, hmem, hc⟩
    · rw [if_neg hc] at heq
      exact absurd heq (by simp)
  · rintro ⟨info, hmem, hc⟩
    exact ⟨(p, info), hmem, by simp [hc]⟩

/-- Witness for C10: `P1` owns `alice` in `hostW` and additionally claims
`bob`. -/
theorem peer_owns_multiple_names_witness :
    (∃ s', RegisterAgentName hostW "bob" "P1" = Except.ok s'
      ∧ mapGet s'.agentNames "alice" = some "P1"
      ∧ mapGet s'.agentNames "bob" = some "P1")
    ∧ (∀ (n : String) (q Q : PeerID), mapGet hostW.agentNames n = some q →
        mapGet (onPeerConnected hostW Q).agentNames n = some q
        ∧ mapGet (onPeerDisconnected hostW Q).agentNames n = some q)
    ∧ (∀ (n m : String) (q R : PeerID) (s'' : Host),
        mapGet hostW.agentNames n = some q →
        RegisterAgentName hostW m R = Except.ok s'' →
        mapGet s''.agentNames n = some q) :=
  peer_owns_multiple_names hostW "alice" "bob" "P1" rfl rfl (by decide)

/-- C4: the connected-peer snapshot is exactly the set of identities whose
`Connected` flag is true; after `recordConnect(P1)` it contains `P1`, and
after `recordDisconnect(P1)` it does not. -/
theorem connectedPeers_exact_set (s : Host) (P1 : PeerID) :
    (∀ p, p ∈ connectedPeersSnapshot s
      ↔ ∃ info, (p, info) ∈ s.peers ∧ info.Connected = true)
    ∧ P1 ∈ connectedPeersSnapshot (onPeerConnected s P1)
    ∧ P1 ∉ connectedPeersSnapshot (onPeerDisconnected s P1) := by
  refine ⟨fun p => mem_connectedPeersSnapshot s p, ?_, ?_⟩
  · rw [mem_connectedPeersSnapshot]
    by_cases hex : s.peers.any (fun kv => kv.1 = P1) = true
    · rcases List.any_eq_true.mp hex with ⟨kv, hkv, hp⟩
      have hk : kv.1 = P1 := of_decide_eq_true hp
      refine ⟨setConnected true kv.2, ?_, rfl⟩
      rw [onPeerConnected_peers, if_pos hex]
      have hmem := List.mem_map_of_mem
        (fun kv : PeerID × PeerInfo =>
          if kv.1 = P1 then (kv.1, setConnected true kv.2) else kv) hkv
      have hmem2 : (P1, setConnected true kv.2)
          ∈ s.peers.map (fun kv : PeerID × PeerInfo =>
            if kv.1 = P1 then (kv.1, setConnected true kv.2) else kv) := by
        simpa [hk] using hmem
      exact hmem2
    · refine ⟨⟨P1, "", [], true⟩, ?_, rfl⟩
      rw [onPeerConnected_peers, if_neg hex]
      exact List.mem_append_right _ (by simp)
  · intro hp
    rcases (mem_connectedPeersSnapshot _ P1).mp hp with ⟨info, hmem, hc⟩
    by_cases hex : s.peers.any (fun kv => kv.1 = P1) = true
    · rw [onPeerDisconnected_peers, if_pos hex] at hmem
      rcases List.mem_map.mp hmem with ⟨kv, hkv, heq⟩
      by_cases hk : kv.1 = P1
      · rw [if_pos hk] at heq
        have : info.Connected = false := by
          have h2 := congrArg Prod.snd heq
          simp only at h2
          rw [← h2]
          rfl
        rw [this] at hc
        exact absurd hc (by simp)
      · rw [if_neg hk] at heq
        rw [heq] at hk
        exact hk rfl
    · rw [onPeerDisconnected_peers, if_neg hex] at hmem
      exact hex (List.any_eq_true.mpr ⟨(P1, info), hmem, by simp⟩)

/-- Witness for C4: connect `P1` into the empty registry, then disconnect
it again. -/
theorem connectedPeers_exact_set_witness :
    "P1" ∈ connectedPeersSnapshot (onPeerConnected hostEmpty "P1")
    ∧ "P1" ∉ connectedPeersSnapshot
        (onPeerDisconnected (onPeerConnected hostEmpty "P1") "P1") :=
  ⟨(connectedPeers_exact_set hostEmpty "P1").2.1,
   (connectedPeers_exact_set (onPeerConnected hostEmpty "P1") "P1").2.2⟩

/-- C8: a second `recordConnect(P)` leaves the registry state literally
unchanged (its only effect, `Connected = true`, is already in force, and
all other fields of `P`'s entry as well as every other entry survive any
connect); `recordDisconnect(P)` for an unknown `P` is a no-op that creates
no entry. -/
theorem record_connect_idempotent_disconnect_noop (s : Host) (P : PeerID) :
    onPeerConnected (onPeerConnected s P) P = onPeerConnected s P
    ∧ (∀ info, mapGet s.peers P = some info →
        mapGet (onPeerConnected s P).peers P
          = some (setConnected true info))
    ∧ (∀ q, q ≠ P → mapGet (onPeerConnected s P).peers q = mapGet s.peers q)
    ∧ (onPeerConnected s P).agentNames = s.agentNames
    ∧ (s.peers.any (fun kv => kv.1 = P) = false → onPeerDisconnected s P = s) := by
  refine ⟨?_, ?_, ?_, onPeerConnected_agentNames s P, ?_⟩
  · apply Host.ext'
    · rw [onPeerConnected_peers (onPeerConnected s P) P, onPeerConnected_peers s P]
      by_cases hex : s.peers.any (fun kv => kv.1 = P) = true
      · rw [if_pos hex]
        have hany2 : ((s.peers.map (fun kv =>
            if kv.1 = P then (kv.1, setConnected true kv.2) else kv)).any
            (fun kv => kv.1 = P)) = true := by
          rw [any_key_map_update]
          exact hex
        rw [if_pos hany2, List.map_map]
        apply List.map_congr_left
        intro kv _
        by_cases hk : kv.1 = P <;> simp [Function.comp, hk, setConnected]
      · rw [if_neg hex]
        have hany2 : ((s.peers ++ [(P, (⟨P, "", [], true⟩ : PeerInfo))]).any
            (fun kv => kv.1 = P)) = true := by simp
        rw [if_pos hany2, List.map_append,
          map_update_id s.peers P _ (Bool.eq_false_iff.mpr (fun hc => hex hc))]
        simp [setConnected]
    · rw [onPeerConnected_agentNames, onPeerConnected_agentNames]
  · intro info hinfo
    unfold mapGet at hinfo ⊢
    rcases hfind : s.peers.find? (fun kv => kv.1 = P) with _ | kv0
    · rw [hfind] at hinfo
      exact absurd hinfo (by simp)
    · rw [hfind] at hinfo
      have hkey : kv0.1 = P := by
        have := List.find?_some hfind
        exact of_decide_eq_true this
      have hval : kv0.2 = info := by
        simpa using hinfo
      have hex : s.peers.any (fun kv => kv.1 = P) = true :=
        List.any_eq_true.mpr
          ⟨kv0, List.mem_of_find?_eq_some hfind, by simp [hkey]⟩
      rw [onPeerConnected_peers, if_pos hex, find?_update_self, hfind]
      simp [hval]
  · intro q hq
    unfold mapGet
    by_cases hex : s.peers.any (fun kv => kv.1 = P) = true
    · rw [onPeerConnected_peers, if_pos hex, find?_update_other s.peers P q _ hq]
    · rw [onPeerConnected_peers, if_neg hex, find?_append_other s.peers P q _ hq]
  · intro habs
    unfold onPeerDisconnected
    rw [if_neg (fun hc => by rw [habs] at hc; exact Bool.false_ne_true hc)]

/-- Witness for C8: double-connect on a fresh peer and a disconnect of a
peer the empty registry has never seen. -/
theorem record_connect_idempotent_disconnect_noop_witness :
    onPeerConnected (onPeerConnected hostEmpty "PX") "PX"
      = onPeerConnected hostEmpty "PX"
    ∧ onPeerDisconnected hostEmpty "PX" = hostEmpty :=
  ⟨(record_connect_idempotent_disconnect_noop hostEmpty "PX").1,
   (record_connect_idempotent_disconnect_noop hostEmpty "PX").2.2.2.2 rfl⟩

theorem filterMap_keys_sublist {α : Type} (l : List (PeerID × α))
    (p : α → Bool) :
    (l.filterMap (fun kv => if p kv.2 then some kv.1 else none)).Sublist
      (l.map (fun kv => kv.1)) := by
  induction l with
  | nil => simp
  | cons kv tl ih =>
    by_cases hp : p kv.2
    · simp only [List.filterMap_cons, hp, if_pos, List.map_cons]
      exact ih.cons₂ kv.1
    · simp only [List.filterMap_cons, if_neg hp, List.map_cons]
      exact ih.cons kv.1

theorem connectedPeersSnapshot_nodup (s : Host)
    (hnd : (s.peers.map (fun kv => kv.1)).Nodup) :
    (connectedPeersSnapshot s).Nodup := by
  unfold connectedPeersSnapshot
  exact List.Nodup.sublist (filterMap_keys_sublist s.peers PeerInfo.Connected) hnd

/-- C3: `broadcast(m)` dispatches exactly one send per connected peer in
the snapshot and always hands `nil` back to the caller; each peer's
delivery outcome is a function of its own transport result alone, so one
peer's failure cannot prevent any other send. -/
theorem broadcast_fanout_isolation (s : Host)
    (send : PeerID → Except String (Option Message))
    (hnd : (s.peers.map (fun kv => kv.1)).Nodup) :
    (Broadcast s send).2 = Except.ok ()
    ∧ (Broadcast s send).1.map (fun pb => pb.1) = connectedPeersSnapshot s
    ∧ (∀ p info, (p, info) ∈ s.peers → info.Connected = true →
        (connectedPeersSnapshot s).count p = 1)
    ∧ (∀ p, p ∈ connectedPeersSnapshot s →
        (p, match send p with
            | Except.ok _ => true
            | Except.error _ => false) ∈ (Broadcast s send).1) := by
  refine ⟨rfl, ?_, ?_, ?_⟩
  · unfold Broadcast
    rw [List.map_map]
    have hc : ((fun pb : PeerID × Bool => pb.1) ∘ fun pid =>
        (pid, match send pid with
              | Except.ok _ => true
              | Except.error _ => false)) = fun pid => pid := by
      funext pid
      rfl
    rw [hc]
    exact List.map_id' (connectedPeersSnapshot s)
  · intro p info hmem hconn
    have hp : p ∈ connectedPeersSnapshot s :=
      (mem_connectedPeersSnapshot s p).mpr ⟨info, hmem, hconn⟩
    exact List.count_eq_one_of_mem (connectedPeersSnapshot_nodup s hnd) hp
  · intro p hp
    unfold Broadcast
    exact List.mem_map_of_mem _ hp

/-- Witness for C3 on the spec's scenario: three connected peers with the
transport to `P2` failing; `P1` and `P3` are each dispatched exactly once
and succeed, and the caller still sees `nil`. -/
theorem broadcast_fanout_isolation_witness :
    (Broadcast hostThree sendFailP2).2 = Except.ok ()
    ∧ ("P1", true) ∈ (Broadcast hostThree sendFailP2).1
    ∧ ("P3", true) ∈ (Broadcast hostThree sendFailP2).1
    ∧ (connectedPeersSnapshot hostThree).count "P1" = 1
    ∧ (connectedPeersSnapshot hostThree).count "P3" = 1 := by
  refine ⟨(broadcast_fanout_isolation hostThree sendFailP2 (by decide)).1,
    ?_, ?_, ?_, ?_⟩
  · have h := (broadcast_fanout_isolation hostThree sendFailP2 (by decide)).2.2.2
      "P1" (by decide)
    simpa [sendFailP2] using h
  · have h := (broadcast_fanout_isolation hostThree sendFailP2 (by decide)).2.2.2
      "P3" (by decide)
    simpa [sendFailP2] using h
  · exact (broadcast_fanout_isolation hostThree sendFailP2 (by decide)).2.2.1
      "P1" ⟨"P1", "", [], true⟩ (by decide) rfl
  · exact (broadcast_fanout_isolation hostThree sendFailP2 (by decide)).2.2.1
      "P3" ⟨"P3", "", [], true⟩ (by decide) rfl

/-- C9: a well-formed envelope whose `type` is none of the seven defined
values decodes successfully with all fields preserved, and dispatching it
is a no-op — no reply, no error, no state change. -/
theorem unknown_type_decodes_and_dispatch_noop
    (forward : Json → Except String Json) (selfID : String) (a : AgentState)
    (from_ : PeerID) (t f to_ rid : String) (p : Json)
    (hunk : t ∉ definedMessageTypes) :
    decodeMessage (encodeMessage ⟨t, f, to_, rid, p⟩) = some ⟨t, f, to_, rid, p⟩
    ∧ handleP2PMessage forward selfID a from_ ⟨t, f, to_, rid, p⟩
        = (a, none, none) := by
  refine ⟨decode_encode _, ?_⟩
  simp only [definedMessageTypes, List.mem_cons, List.not_mem_nil, or_false,
    not_or] at hunk
  obtain ⟨h1, h2, h3, h4, h5, h6, h7⟩ := hunk
  unfold handleP2PMessage
  dsimp only
  rw [if_neg h3, if_neg h1, if_neg h4, if_neg h7]

/-- Witness for C9: a `hologram`-typed envelope from a fresh agent state. -/
theorem unknown_type_decodes_and_dispatch_noop_witness :
    decodeMessage (encodeMessage ⟨"hologram", "QmS", "", "", Json.null⟩)
      = some ⟨"hologram", "QmS", "", "", Json.null⟩
    ∧ handleP2PMessage (fun j => Except.ok j) "selfPeer" ⟨hostEmpty, []⟩ "QmS"
        ⟨"hologram", "QmS", "", "", Json.null⟩
      = (⟨hostEmpty, []⟩, none, none) :=
  unknown_type_decodes_and_dispatch_noop (fun j => Except.ok j) "selfPeer"
    ⟨hostEmpty, []⟩ "QmS" "hologram" "QmS" "" "" Json.null (by decide)

end P2P
